import Mathlib

/-!
Verification of the seedwing-policy linker, test runner and HTML renderer.

A shallow embedding of the repository's four source files:

* `seedwing-policy-engine/src/runtime/linker/mod.rs` — `Linker::link`
* `cli/src/command/test.rs` — `TestPlan` / `TestCase`
* `seedwing-policy-server/src/ui/html.rs` — `Htmlifier`

Types from the `lang`, `value`, `runtime` and `function` modules are not part
of the provided sources; each such definition carries a doc comment starting
with `Modelled from the spec:` and follows the specification's description.
`todo!()` panics in the Rust source are embedded as an explicit `panic`
outcome constructor, never as a returned error value. Source locations
(`Located<T>`) are elided: the spec states they have no semantic role.
-/

namespace Seedwing

/-- Modelled from the spec: a `TypeName` is either a bare identifier
(unqualified, empty package) or a fully-qualified name (non-empty package
path plus leaf). -/
structure TypeName where
  package : List String
  name : String
deriving DecidableEq, Repr

/-- Modelled from the spec: `TypeName::new` applied to a bare identifier
(the linker only calls it on bare definition names and on `"int"`). -/
def TypeName.new (s : String) : TypeName := ⟨[], s⟩

/-- Modelled from the spec: `is_qualified()` — true iff the package path is
non-empty. -/
def TypeName.isQualified (t : TypeName) : Bool := !t.package.isEmpty

/-- Modelled from the spec: a `PackagePath` is an ordered sequence of
identifier segments, possibly empty. -/
structure PackagePath where
  segments : List String
deriving DecidableEq, Repr

/-- Modelled from the spec: `PackagePath::type_name(leaf)` concatenates the
package with a leaf identifier. -/
def PackagePath.typeName (p : PackagePath) (leaf : String) : TypeName :=
  ⟨p.segments, leaf⟩

mutual
/-- Modelled from the spec: the hir type-expression family as far as the
linker observes it — every textual type reference is a `ref` leaf; the
structural constructors carry sub-expressions that may contain further
references. -/
inductive Ty where
  | anything : Ty
  | nothing : Ty
  | ref : TypeName → Ty
  | object : Fields → Ty
  | join : Ty → Ty → Ty
  | meet : Ty → Ty → Ty
  | refinement : Ty → Ty → Ty
  | list : Ty → Ty
deriving DecidableEq, Repr

/-- Modelled from the spec: the field list of an object type (a list of
name/type pairs). -/
inductive Fields where
  | nil : Fields
  | cons : String → Ty → Fields → Fields
deriving DecidableEq, Repr
end

/-- A visibility table: the Rust `HashMap<String, Option<Located<TypeName>>>`
modelled as an association list where `insert` prepends and `lookup` takes
the first hit, giving the overwrite semantics of `HashMap::insert` and of
`collect` (later pairs overwrite earlier ones). `none` as a value means
"no qualification needed" (the primordial entry). -/
abbrev VisMap := List (String × Option TypeName)

def visInsert (m : VisMap) (k : String) (v : Option TypeName) : VisMap :=
  (k, v) :: m

def visLookup (m : VisMap) (k : String) : Option (Option TypeName) :=
  match m with
  | [] => none
  | (k', v) :: rest => if k' = k then some v else visLookup rest k

mutual
/-- Modelled from the spec: `referenced_types()` — all `TypeName`s textually
referenced by the expression, in order, preserving any unqualified-ness. -/
def Ty.referencedTypes : Ty → List TypeName
  | .anything => []
  | .nothing => []
  | .ref n => [n]
  | .object fs => fs.referencedTypes
  | .join l r => l.referencedTypes ++ r.referencedTypes
  | .meet l r => l.referencedTypes ++ r.referencedTypes
  | .refinement b p => b.referencedTypes ++ p.referencedTypes
  | .list e => e.referencedTypes

def Fields.referencedTypes : Fields → List TypeName
  | .nil => []
  | .cons _ t rest => t.referencedTypes ++ rest.referencedTypes
end

/-- Modelled from the spec: how `qualify_types` rewrites one reference —
an unqualified reference found in `visible` is replaced by the `TypeName`
stored there (`none` means no qualification needed, so the reference is
kept); qualified references are untouched; unqualified references absent
from `visible` are left as-is (phase 1 has already flagged them). -/
def qualifyName (visible : VisMap) (t : TypeName) : TypeName :=
  if t.isQualified then t
  else
    match visLookup visible t.name with
    | some (some q) => q
    | some none => t
    | none => t

mutual
/-- Modelled from the spec: `qualify_types(&visible)` — rewrite all
unqualified references of the expression using the lookup table. -/
def Ty.qualifyTypes (visible : VisMap) : Ty → Ty
  | .anything => .anything
  | .nothing => .nothing
  | .ref n => .ref (qualifyName visible n)
  | .object fs => .object (fs.qualifyTypes visible)
  | .join l r => .join (l.qualifyTypes visible) (r.qualifyTypes visible)
  | .meet l r => .meet (l.qualifyTypes visible) (r.qualifyTypes visible)
  | .refinement b p => .refinement (b.qualifyTypes visible) (p.qualifyTypes visible)
  | .list e => .list (e.qualifyTypes visible)

def Fields.qualifyTypes (visible : VisMap) : Fields → Fields
  | .nil => .nil
  | .cons k t rest => .cons k (t.qualifyTypes visible) (rest.qualifyTypes visible)
end

/-- Modelled from the spec: a `use` entry of a compilation unit, mapping a
local alias (`as_name()`) to the imported fully-qualified `TypeName`
(`type_name()`). -/
structure UseEntry where
  asName : String
  typeName : TypeName
deriving DecidableEq, Repr

/-- Modelled from the spec: a type definition — a name (unqualified at parse
time) and an inner type expression. -/
structure TypeDefinition where
  name : String
  ty : Ty
deriving DecidableEq, Repr

/-- Modelled from the spec: a compilation unit exposing `source()` (already
normalised to a `PackagePath`, i.e. `PackagePath::from(unit.source())`),
`uses()` and `types()`. -/
structure CompilationUnit where
  source : PackagePath
  uses : List UseEntry
  types : List TypeDefinition
deriving DecidableEq, Repr

/-- Modelled from the spec: a native callable is an opaque handle as far as
the linker is concerned; the linker never inspects it. -/
structure Callable where
  id : Nat
deriving DecidableEq, Repr

/-- Modelled from the spec: a `FunctionPackage` is a set of
(identifier → callable) pairs, here in declaration order. -/
structure FunctionPackage where
  functions : List (String × Callable)
deriving DecidableEq, Repr

/-- Modelled from the spec: `function_names()` lists the identifiers of the
package's functions. -/
def FunctionPackage.functionNames (p : FunctionPackage) : List String :=
  p.functions.map Prod.fst

/-- Modelled from the spec: the `Runtime` (the World): a dictionary from
names to type nodes and one from names to native callables, both
append-only during link. `define` and `define_function` treat a duplicate
key as an error; the linking loops in the source ignore the result of
every `define` call, so a refused duplicate leaves the dictionary
unchanged and linking carries on. -/
structure Runtime where
  types : List (TypeName × Ty)
  functions : List (TypeName × Callable)
deriving DecidableEq, Repr

/-- Modelled from the spec: `BuildError` kinds (declared in the runtime
module; the linker's source never constructs one). -/
inductive BuildError where
  | unresolvedNameInUnit : String → BuildError
  | unresolvedNameInWorld : TypeName → BuildError
  | duplicateDefinition : TypeName → BuildError
  | duplicateImport : String → BuildError
  | functionTypeCollision : TypeName → BuildError
deriving DecidableEq, Repr

/-- The possible outcomes of `Linker::link`: `Ok(runtime)`, an
`Err(Vec<BuildError>)` (the declared error branch of its `Result` type),
or a `todo!()` panic — the placeholder failures in the source abort the
whole call and return nothing. -/
inductive LinkOutcome where
  | ok : Runtime → LinkOutcome
  | errs : List BuildError → LinkOutcome
  | panic : String → LinkOutcome
deriving DecidableEq, Repr

/-! Embedding of `Linker::link`
(seedwing-policy-engine/src/runtime/linker/mod.rs).

Phase 1 per unit: build the visibility table, check every unqualified
reference against it (`todo!` on a miss), then qualify all definitions.
Phase 2: collect the world census. Phase 3: check every (now qualified)
reference against the census (`todo!` on a miss). Phase 4: build the
runtime. The source's `Result` error branch is never taken: the only exits
are `Ok(runtime)` and the `todo!` panics. -/

/-- The phase-1 visibility table of one unit, built exactly as the source
does: `collect` over the chain of `uses` (alias ↦ imported name) and
`types` (bare name ↦ unqualified `TypeName::new(name)`), then insert
`"int" ↦ None`, then insert every local definition's bare name ↦ its
fully-qualified `unit_path.type_name(name)`. -/
def visibleTypes (unit : CompilationUnit) : VisMap :=
  unit.types.foldl
    (fun m defn => visInsert m defn.name (some (unit.source.typeName defn.name)))
    (visInsert
      ((unit.uses.map (fun e => (e.asName, some e.typeName)) ++
        unit.types.map (fun e => (e.name, some (TypeName.new e.name)))).foldl
        (fun m kv => visInsert m kv.1 kv.2) [])
      ("int") none)

/-- Phase-1 reference check over one definition's referenced types: the
first unqualified reference whose bare name is not a key of `visible`
triggers the `todo!("unknown type referenced ...")` panic. -/
def checkRefList (visible : VisMap) : List TypeName → Option String
  | [] => none
  | t :: rest =>
    if !t.isQualified && (visLookup visible t.name).isNone then
      some ("unknown type referenced " ++ t.name)
    else checkRefList visible rest

/-- Phase-1 reference check over all definitions of a unit, in order. -/
def checkDefns (visible : VisMap) : List TypeDefinition → Option String
  | [] => none
  | d :: rest =>
    match checkRefList visible d.ty.referencedTypes with
    | some msg => some msg
    | none => checkDefns visible rest

/-- Phase 1 for one unit: check, then qualify every definition via
`qualify_types(&visible)`. -/
def processUnit (unit : CompilationUnit) : Except String CompilationUnit :=
  match checkDefns (visibleTypes unit) unit.types with
  | some msg => .error msg
  | none =>
    .ok { unit with
          types := unit.types.map
            (fun d => { d with ty := d.ty.qualifyTypes (visibleTypes unit) }) }

/-- Phase 1 over all units, in order; the first panic aborts the rest. -/
def processUnits : List CompilationUnit → Except String (List CompilationUnit)
  | [] => .ok []
  | u :: rest =>
    match processUnit u with
    | .error msg => .error msg
    | .ok u' =>
      match processUnits rest with
      | .error msg => .error msg
      | .ok rest' => .ok (u' :: rest')

/-- Phase 2: the world census `Vec<TypeName>` — `"int"`, then every
package function's qualified name, then every unit type's qualified name.
No duplicate detection is performed. -/
def worldCensus (units : List CompilationUnit)
    (packages : List (PackagePath × FunctionPackage)) : List TypeName :=
  [TypeName.new ("int")] ++
    packages.flatMap (fun pp => pp.2.functionNames.map pp.1.typeName) ++
    units.flatMap (fun u => u.types.map (fun t => u.source.typeName t.name))

/-- Phase-3 check of one reference list against the census: the first
reference not contained in the census triggers the
`todo!("failed to inter-unit link ...")` panic. -/
def checkWorldRefs (world : List TypeName) : List TypeName → Option TypeName
  | [] => none
  | t :: rest =>
    if world.contains t then checkWorldRefs world rest else some t

/-- Phase-3 check over all definitions of a unit. -/
def checkWorldDefns (world : List TypeName) :
    List TypeDefinition → Option TypeName
  | [] => none
  | d :: rest =>
    match checkWorldRefs world d.ty.referencedTypes with
    | some t => some t
    | none => checkWorldDefns world rest

/-- Phase-3 check over all units. -/
def checkWorldUnits (world : List TypeName) :
    List CompilationUnit → Option TypeName
  | [] => none
  | u :: rest =>
    match checkWorldDefns world u.types with
    | some t => some t
    | none => checkWorldUnits world rest

/-- Modelled from the spec: one `define`/`define_function` insertion —
append the binding unless the key is already present, in which case the
duplicate is an error that the caller (the linking loop) discards,
leaving the dictionary unchanged. -/
def defineInsert {α : Type} (dict : List (TypeName × α)) (k : TypeName)
    (v : α) : List (TypeName × α) :=
  if (dict.map Prod.fst).contains k then dict else dict ++ [(k, v)]

/-- Phase 4: `Runtime::define` for every (unit, definition) pair in order
under its qualified name, then `Runtime::define_function` for every
(package, function) pair; the nested loops are flattened into one fold
per dictionary. -/
def buildRuntime (units : List CompilationUnit)
    (packages : List (PackagePath × FunctionPackage)) : Runtime :=
  { types := (units.flatMap
      (fun u => u.types.map (fun d => (u.source.typeName d.name, d.ty)))).foldl
      (fun acc kv => defineInsert acc kv.1 kv.2) []
    functions := (packages.flatMap
      (fun pp => pp.2.functions.map (fun nf => (pp.1.typeName nf.1, nf.2)))).foldl
      (fun acc kv => defineInsert acc kv.1 kv.2) [] }

/-- `Linker::link`. -/
def link (units : List CompilationUnit)
    (packages : List (PackagePath × FunctionPackage)) : LinkOutcome :=
  match processUnits units with
  | .error msg => .panic msg
  | .ok qualifiedUnits =>
    match checkWorldUnits (worldCensus qualifiedUnits packages) qualifiedUnits with
    | some t => .panic ("failed to inter-unit link for " ++ t.name)
    | none => .ok (buildRuntime qualifiedUnits packages)

/-- Whether a `LinkOutcome` is the `Err(Vec<BuildError>)` branch. -/
def LinkOutcome.isErrs : LinkOutcome → Bool
  | .errs _ => true
  | _ => false

/-! Concrete compilation units used by witnesses and counterexamples. -/

/-- The spec's scenario 5: a unit in package `a` declaring
`A = { x: Bogus }` with no matching import or definition. -/
def bogusUnit : CompilationUnit :=
  ⟨⟨["a"]⟩, [], [⟨"A", .object (.cons "x" (.ref (TypeName.new ("Bogus"))) .nil)⟩]⟩

/-- A unit in package `a` declaring `A = { x: int }`. -/
def intRefUnit : CompilationUnit :=
  ⟨⟨["a"]⟩, [], [⟨"A", .object (.cons "x" (.ref (TypeName.new ("int"))) .nil)⟩]⟩

/-- A unit in package `a` declaring `A = { x: string }`. -/
def stringRefUnit : CompilationUnit :=
  ⟨⟨["a"]⟩, [], [⟨"A", .object (.cons "x" (.ref (TypeName.new ("string"))) .nil)⟩]⟩

/-- A unit in package `a` declaring `T = anything`. -/
def dupUnit1 : CompilationUnit := ⟨⟨["a"]⟩, [], [⟨"T", .anything⟩]⟩

/-- A second unit in package `a` declaring `T = nothing`. -/
def dupUnit2 : CompilationUnit := ⟨⟨["a"]⟩, [], [⟨"T", .nothing⟩]⟩

/-- A function package at path `a` providing a function named `T`. -/
def dupPackage : PackagePath × FunctionPackage := (⟨["a"]⟩, ⟨[("T", ⟨0⟩)]⟩)

/-- A unit in package `p` that imports `other::T` under alias `T` and also
defines a local type `T`, referencing the bare name `T` from `B`. -/
def shadowUnit : CompilationUnit :=
  ⟨⟨["p"]⟩, [⟨"T", ⟨["other"], "T"⟩⟩],
    [⟨"T", .anything⟩, ⟨"B", .ref (TypeName.new ("T"))⟩]⟩

/-! Lemmas about the visibility table. -/

/-- Folding definition inserts whose keys all differ from `k` leaves the
lookup of `k` unchanged. -/
theorem visLookup_foldl_ne (g : TypeDefinition → Option TypeName)
    (l : List TypeDefinition) (m : VisMap) (k : String)
    (h : ∀ d ∈ l, d.name ≠ k) :
    visLookup (l.foldl (fun m d => visInsert m d.name (g d)) m) k =
      visLookup m k := by
  induction l generalizing m with
  | nil => rfl
  | cons d rest ih =>
    have hd : d.name ≠ k := h d (List.mem_cons_self d rest)
    have hrest : ∀ d' ∈ rest, d'.name ≠ k := fun d' hm =>
      h d' (List.mem_cons_of_mem d hm)
    simp only [List.foldl_cons]
    rw [ih (visInsert m d.name (g d)) hrest]
    simp [visInsert, visLookup, hd]

/-- Folding the phase-1 qualified-name inserts over a list containing a
definition named `k` makes the lookup of `k` return the qualified name
`p::k`. -/
theorem visLookup_foldl_mem (p : PackagePath) (l : List TypeDefinition)
    (m : VisMap) (k : String) (h : ∃ d ∈ l, d.name = k) :
    visLookup
      (l.foldl (fun m d => visInsert m d.name (some (p.typeName d.name))) m)
      k = some (some (p.typeName k)) := by
  induction l generalizing m with
  | nil =>
    rcases h with ⟨d, hd, _⟩
    exact absurd hd (List.not_mem_nil d)
  | cons d rest ih =>
    simp only [List.foldl_cons]
    by_cases hrest : ∃ d' ∈ rest, d'.name = k
    · exact ih (visInsert m d.name (some (p.typeName d.name))) hrest
    · have hd : d.name = k := by
        rcases h with ⟨d', hd', hname⟩
        rcases List.mem_cons.mp hd' with h1 | h1
        · exact h1 ▸ hname
        · exact absurd ⟨d', h1, hname⟩ hrest
      have hne : ∀ d' ∈ rest, d'.name ≠ k := by
        intro d' hm hc
        exact hrest ⟨d', hm, hc⟩
      rw [visLookup_foldl_ne _ rest _ k hne]
      simp [visInsert, visLookup, hd]

/-! Lemmas about the phase-3 census check and the link outcome. -/

theorem mem_of_contains_typeName (l : List TypeName) (t : TypeName)
    (h : l.contains t = true) : t ∈ l := by
  simpa using h

theorem checkWorldRefs_none_mem (world refs : List TypeName)
    (h : checkWorldRefs world refs = none) : ∀ r ∈ refs, r ∈ world := by
  induction refs with
  | nil => intro r hr; exact absurd hr (List.not_mem_nil r)
  | cons t rest ih =>
    intro r hr
    unfold checkWorldRefs at h
    by_cases hc : world.contains t = true
    · rw [if_pos hc] at h
      rcases List.mem_cons.mp hr with h1 | h1
      · exact h1 ▸ mem_of_contains_typeName world t hc
      · exact ih h r h1
    · rw [if_neg hc] at h
      exact absurd h (by simp)

theorem checkWorldDefns_none_mem (world : List TypeName)
    (l : List TypeDefinition) (h : checkWorldDefns world l = none) :
    ∀ d ∈ l, checkWorldRefs world d.ty.referencedTypes = none := by
  induction l with
  | nil => intro d hd; exact absurd hd (List.not_mem_nil d)
  | cons d rest ih =>
    intro d' hd'
    unfold checkWorldDefns at h
    cases hc : checkWorldRefs world d.ty.referencedTypes with
    | some t => rw [hc] at h; exact absurd h (by simp)
    | none =>
      rw [hc] at h
      rcases List.mem_cons.mp hd' with h1 | h1
      · exact h1 ▸ hc
      · exact ih h d' h1

theorem checkWorldUnits_none_mem (world : List TypeName)
    (l : List CompilationUnit) (h : checkWorldUnits world l = none) :
    ∀ u ∈ l, checkWorldDefns world u.types = none := by
  induction l with
  | nil => intro u hu; exact absurd hu (List.not_mem_nil u)
  | cons u rest ih =>
    intro u' hu'
    unfold checkWorldUnits at h
    cases hc : checkWorldDefns world u.types with
    | some t => rw [hc] at h; exact absurd h (by simp)
    | none =>
      rw [hc] at h
      rcases List.mem_cons.mp hu' with h1 | h1
      · exact h1 ▸ hc
      · exact ih h u' h1

/-- A refused duplicate adds no key; an accepted insert adds exactly the
inserted key. -/
theorem mem_keys_defineInsert {α : Type} (dict : List (TypeName × α))
    (k0 : TypeName) (v : α) (k : TypeName) :
    k ∈ (defineInsert dict k0 v).map Prod.fst ↔
      k ∈ dict.map Prod.fst ∨ k = k0 := by
  unfold defineInsert
  by_cases h : (dict.map Prod.fst).contains k0 = true
  · rw [if_pos h]
    have hk0 : k0 ∈ dict.map Prod.fst := by simpa using h
    constructor
    · exact fun h1 => Or.inl h1
    · rintro (h1 | rfl)
      · exact h1
      · exact hk0
  · rw [if_neg h]
    simp

/-- The keys of a dictionary built by folding `define` over a pair list
are, as a set, the accumulator's keys plus the pairs' keys. -/
theorem mem_keys_foldl_defineInsert {α : Type} (l : List (TypeName × α))
    (acc : List (TypeName × α)) (k : TypeName) :
    k ∈ (l.foldl (fun acc kv => defineInsert acc kv.1 kv.2) acc).map
        Prod.fst ↔
      k ∈ acc.map Prod.fst ∨ k ∈ l.map Prod.fst := by
  induction l generalizing acc with
  | nil => simp
  | cons kv rest ih =>
    simp only [List.foldl_cons, List.map_cons, List.mem_cons]
    rw [ih, mem_keys_defineInsert]
    tauto

/-- Every binding of a dictionary built by folding `define` comes from
the accumulator or from the folded pair list. -/
theorem mem_foldl_defineInsert_sub {α : Type} (l acc : List (TypeName × α))
    (kv : TypeName × α)
    (h : kv ∈ l.foldl (fun acc kv => defineInsert acc kv.1 kv.2) acc) :
    kv ∈ acc ∨ kv ∈ l := by
  induction l generalizing acc with
  | nil => exact Or.inl h
  | cons p rest ih =>
    simp only [List.foldl_cons] at h
    rcases ih _ h with h1 | h1
    · unfold defineInsert at h1
      by_cases hc : (acc.map Prod.fst).contains p.1 = true
      · rw [if_pos hc] at h1
        exact Or.inl h1
      · rw [if_neg hc] at h1
        rcases List.mem_append.mp h1 with h2 | h2
        · exact Or.inl h2
        · right
          simp only [List.mem_singleton] at h2
          rw [h2]
          exact List.mem_cons_self _ rest
    · exact Or.inr (List.mem_cons_of_mem p h1)

/-- Membership in the census is exactly: being `"int"`, or being a key of
the function dictionary or of the type dictionary the same inputs build. -/
theorem mem_worldCensus_iff (units : List CompilationUnit)
    (packages : List (PackagePath × FunctionPackage)) (r : TypeName) :
    r ∈ worldCensus units packages ↔
      (r = TypeName.new ("int") ∨
        r ∈ (buildRuntime units packages).functions.map Prod.fst ∨
        r ∈ (buildRuntime units packages).types.map Prod.fst) := by
  simp only [worldCensus, buildRuntime, mem_keys_foldl_defineInsert,
    List.map_nil, List.not_mem_nil, false_or, List.mem_append,
    List.mem_cons, List.map_flatMap, List.map_map, Function.comp_def,
    FunctionPackage.functionNames]
  tauto

/-- The source of `Linker::link` never takes the `Err` branch of its
`Result`: its only exits are `Ok(runtime)` and the `todo!()` panics. -/
theorem link_isErrs_false (units : List CompilationUnit)
    (packages : List (PackagePath × FunctionPackage)) :
    (link units packages).isErrs = false := by
  unfold link
  cases hp : processUnits units with
  | error msg => rfl
  | ok qs =>
    cases hw : checkWorldUnits (worldCensus qs packages) qs with
    | some t => simp [hw, LinkOutcome.isErrs]
    | none => simp [hw, LinkOutcome.isErrs]

/-! Claim theorems about the linker. -/

/-- C1: the claim says `link` returns a non-empty list of `BuildError`s
(one `UnresolvedNameInUnit` mentioning `Bogus` for the scenario-5 unit)
and produces no World. The code instead aborts through the
`todo!("unknown type referenced ...")` placeholder on that very input, and
its `Err` branch is structurally unreachable: `link` never returns any
`BuildError` list at all. -/
theorem C1_unresolved_reference_panics_not_errors :
    link [bogusUnit] [] = .panic ("unknown type referenced Bogus") ∧
    ∀ units packages, (link units packages).isErrs = false :=
  ⟨rfl, fun units packages => link_isErrs_false units packages⟩

/-- C2 counterexample: a successful link of `a::A = { x: int }` produces a
World whose stored type still references the unqualified name `int`, and
`int` is a key of neither dictionary — refuting both that every reference
is fully qualified and that every reference is in the dictionaries. -/
theorem C2_counterexample_int_reference :
    link [intRefUnit] [] =
      .ok ⟨[(⟨["a"], "A"⟩,
            .object (.cons "x" (.ref (TypeName.new ("int"))) .nil))], []⟩ ∧
    (TypeName.new ("int")).isQualified = false ∧
    (TypeName.new ("int")) ∈
      (Ty.object (.cons "x" (.ref (TypeName.new ("int"))) .nil)).referencedTypes ∧
    (TypeName.new ("int")) ∉
      ([(⟨["a"], "A"⟩,
        Ty.object (.cons "x" (.ref (TypeName.new ("int"))) .nil))] :
        List (TypeName × Ty)).map Prod.fst ∧
    ([] : List (TypeName × Callable)).map Prod.fst = [] := by
  refine ⟨rfl, rfl, ?_, by decide, rfl⟩
  decide

/-- C2 (amended): for every successful link, every `TypeName` referenced by
any type stored in the produced World is in the phase-2 census — it is
either the primordial name `int` (which stays unqualified and is in
neither dictionary) or a key of one of the two dictionaries. -/
theorem C2_references_resolve_in_census (units : List CompilationUnit)
    (packages : List (PackagePath × FunctionPackage)) (rt : Runtime)
    (hlink : link units packages = .ok rt) (n : TypeName) (ty : Ty)
    (hmem : (n, ty) ∈ rt.types) (r : TypeName)
    (hr : r ∈ ty.referencedTypes) :
    r = TypeName.new ("int") ∨ r ∈ rt.types.map Prod.fst ∨
      r ∈ rt.functions.map Prod.fst := by
  unfold link at hlink
  split at hlink
  · exact absurd hlink (by simp)
  · rename_i qs hp
    split at hlink
    · exact absurd hlink (by simp)
    · rename_i hw
      injection hlink with hrt
      subst hrt
      simp only [buildRuntime] at hmem
      rcases mem_foldl_defineInsert_sub _ _ _ hmem with hmem1 | hmem1
      · exact absurd hmem1 (List.not_mem_nil _)
      simp only [List.mem_flatMap, List.mem_map] at hmem1
      rcases hmem1 with ⟨u, hu, d, hd, heq⟩
      have hty : ty = d.ty := by
        have := congrArg Prod.snd heq
        simpa using this.symm
      have h1 := checkWorldUnits_none_mem _ _ hw u hu
      have h2 := checkWorldDefns_none_mem _ _ h1 d hd
      have h3 := checkWorldRefs_none_mem _ _ h2 r (hty ▸ hr)
      rw [mem_worldCensus_iff] at h3
      rcases h3 with h4 | h4 | h4
      · exact Or.inl h4
      · exact Or.inr (Or.inr h4)
      · exact Or.inr (Or.inl h4)

/-- C2 witness: the amended theorem applied to the concrete successful
link of `a::A = { x: int }` with the reference `int`. -/
theorem C2_witness :
    TypeName.new ("int") = TypeName.new ("int") ∨
      TypeName.new ("int") ∈
        (Runtime.mk [(⟨["a"], "A"⟩,
          .object (.cons "x" (.ref (TypeName.new ("int"))) .nil))] []).types.map
          Prod.fst ∨
      TypeName.new ("int") ∈
        (Runtime.mk [(⟨["a"], "A"⟩,
          .object (.cons "x" (.ref (TypeName.new ("int"))) .nil))] []).functions.map
          Prod.fst :=
  C2_references_resolve_in_census [intRefUnit] [] _ rfl
    ⟨["a"], "A"⟩ (.object (.cons "x" (.ref (TypeName.new ("int"))) .nil))
    (by decide) (TypeName.new ("int")) (by decide)

/-- C3 counterexample: the phase-1 visibility table of a unit contains no
entry for `decimal`, `string` or `boolean`; an unqualified reference to
`string` makes `link` abort through the unresolved-name placeholder; and
the phase-2 census contains `int` only, not the other three primordials. -/
theorem C3_counterexample_only_int :
    visLookup (visibleTypes ⟨⟨["a"]⟩, [], []⟩) ("decimal") = none ∧
    visLookup (visibleTypes ⟨⟨["a"]⟩, [], []⟩) ("string") = none ∧
    visLookup (visibleTypes ⟨⟨["a"]⟩, [], []⟩) ("boolean") = none ∧
    link [stringRefUnit] [] = .panic ("unknown type referenced string") ∧
    TypeName.new ("decimal") ∉ worldCensus [] [] ∧
    TypeName.new ("string") ∉ worldCensus [] [] ∧
    TypeName.new ("boolean") ∉ worldCensus [] [] := by
  exact ⟨rfl, rfl, rfl, rfl, by decide, by decide, by decide⟩

/-- C3 (amended): of the four primordial names only `int` is seeded: every
unit's visibility table maps `int` to "no qualification needed" (unless a
local definition named `int` shadows it), and the phase-2 census always
contains the bare name `int`. -/
theorem C3_int_is_seeded (unit : CompilationUnit)
    (h : ∀ d ∈ unit.types, d.name ≠ "int") :
    visLookup (visibleTypes unit) ("int") = some none ∧
    ∀ units packages, TypeName.new ("int") ∈ worldCensus units packages := by
  constructor
  · unfold visibleTypes
    rw [visLookup_foldl_ne (fun d => some (unit.source.typeName d.name))
      unit.types _ _ h]
    rfl
  · intro units packages
    simp [worldCensus]

/-- C3 witness: the amended theorem applied to a unit with one definition
named `A`. -/
theorem C3_witness :
    visLookup (visibleTypes ⟨⟨["a"]⟩, [], [⟨"A", Ty.anything⟩]⟩) ("int") =
      some none ∧
    TypeName.new ("int") ∈ worldCensus [] [dupPackage] :=
  ⟨(C3_int_is_seeded ⟨⟨["a"]⟩, [], [⟨"A", Ty.anything⟩]⟩ (by decide)).1,
    (C3_int_is_seeded ⟨⟨["a"]⟩, [], [⟨"A", Ty.anything⟩]⟩ (by decide)).2
      [] [dupPackage]⟩

/-- C4 counterexample: two units both defining `a::T` plus a function
package providing `a::T` link successfully — `link` returns a World (no
`DuplicateDefinition` or `FunctionTypeCollision` error is ever produced),
and `a::T` is a key of both dictionaries. -/
theorem C4_counterexample_duplicates_accepted :
    link [dupUnit1, dupUnit2] [dupPackage] =
      .ok ⟨[(⟨["a"], "T"⟩, .anything)], [(⟨["a"], "T"⟩, ⟨0⟩)]⟩ ∧
    (⟨["a"], "T"⟩ : TypeName) ∈
      ([(⟨["a"], "T"⟩, Ty.anything)] : List (TypeName × Ty)).map Prod.fst ∧
    (⟨["a"], "T"⟩ : TypeName) ∈
      ([(⟨["a"], "T"⟩, (⟨0⟩ : Callable))] :
        List (TypeName × Callable)).map Prod.fst :=
  ⟨rfl, by decide, by decide⟩

/-- C4 (amended): the linker performs no collision detection — it never
returns a `BuildError` list on any input, and whenever `link` succeeds
the function dictionary is built from the packages alone, never consulted
against the type definitions, so the same name can be a key of both
dictionaries. -/
theorem C4_no_collision_detection (units : List CompilationUnit)
    (packages : List (PackagePath × FunctionPackage)) :
    (link units packages).isErrs = false ∧
    ∀ rt, link units packages = .ok rt →
      rt.functions = (buildRuntime [] packages).functions := by
  refine ⟨link_isErrs_false units packages, ?_⟩
  intro rt hrt
  unfold link at hrt
  split at hrt
  · exact absurd hrt (by simp)
  · split at hrt
    · exact absurd hrt (by simp)
    · injection hrt with hrt
      subst hrt
      rfl

/-- C4 witness: the amended theorem applied to the duplicate-heavy input:
its function dictionary depends on the package alone. -/
theorem C4_witness :
    (Runtime.mk [(⟨["a"], "T"⟩, .anything)]
        [(⟨["a"], "T"⟩, ⟨0⟩)]).functions =
      (buildRuntime [] [dupPackage]).functions :=
  (C4_no_collision_detection [dupUnit1, dupUnit2] [dupPackage]).2 _ rfl

/-- C5: within one unit the local definition shadows a `use` of the same
bare name — the visibility table maps the bare name to the locally
qualified `P::T`, and qualification rewrites an unqualified reference to
that name as `P::T`. -/
theorem C5_local_definition_shadows_import (unit : CompilationUnit)
    (d : TypeDefinition) (hd : d ∈ unit.types)
    (_hshadow : ∃ u ∈ unit.uses, u.asName = d.name) :
    visLookup (visibleTypes unit) d.name =
      some (some (unit.source.typeName d.name)) ∧
    qualifyName (visibleTypes unit) (TypeName.new d.name) =
      unit.source.typeName d.name := by
  have h1 : visLookup (visibleTypes unit) d.name =
      some (some (unit.source.typeName d.name)) := by
    unfold visibleTypes
    exact visLookup_foldl_mem unit.source unit.types _ d.name ⟨d, hd, rfl⟩
  refine ⟨h1, ?_⟩
  simp [qualifyName, TypeName.isQualified, TypeName.new, h1]

/-- C5 witness: in `shadowUnit` the local definition `T` shadows the
imported `other::T`, resolving to `p::T`. -/
theorem C5_witness :
    visLookup (visibleTypes shadowUnit) ("T") =
      some (some (⟨["p"], "T"⟩ : TypeName)) ∧
    qualifyName (visibleTypes shadowUnit) (TypeName.new ("T")) =
      (⟨["p"], "T"⟩ : TypeName) :=
  C5_local_definition_shadows_import shadowUnit ⟨"T", .anything⟩
    (by decide) ⟨⟨"T", ⟨["other"], "T"⟩⟩, by decide, rfl⟩

/-- C6: linking the same inputs twice yields Worlds whose type dictionary
and function dictionary are equal as mappings (in the embedding `link` is
a pure function of its inputs, so two runs on equal inputs coincide). -/
theorem C6_link_deterministic (units : List CompilationUnit)
    (packages : List (PackagePath × FunctionPackage)) (rt1 rt2 : Runtime)
    (h1 : link units packages = .ok rt1)
    (h2 : link units packages = .ok rt2) :
    rt1.types = rt2.types ∧ rt1.functions = rt2.functions := by
  have h := h1.symm.trans h2
  injection h with h
  exact ⟨congrArg Runtime.types h, congrArg Runtime.functions h⟩

/-- C6 witness: two runs of `link` on the unit defining `a::T` agree. -/
theorem C6_witness :
    (Runtime.mk [(⟨["a"], "T"⟩, .anything)] []).types =
      (Runtime.mk [(⟨["a"], "T"⟩, .anything)] []).types ∧
    (Runtime.mk [(⟨["a"], "T"⟩, .anything)] []).functions =
      (Runtime.mk [(⟨["a"], "T"⟩, .anything)] []).functions :=
  C6_link_deterministic [dupUnit1] [] _ _ rfl rfl

/-! Embedding of the test runner (cli/src/command/test.rs). The file
system is a pure parameter mapping a path to what reading-then-parsing it
yields; the world's `evaluate` is a pure parameter from pattern name and
input to an evaluation result. The runner logic itself (expectation
discovery and `TestCase::run`) follows the source. -/

mutual
/-- Modelled from the spec: the JSON value domain (`serde_json::Value`);
integer versus decimal numbers are distinguished by numeric shape, a
decimal being carried as mantissa and exponent. -/
inductive Json where
  | null : Json
  | bool : Bool → Json
  | intNum : Int → Json
  | decNum : Int → Int → Json
  | str : String → Json
  | arr : JsonItems → Json
  | obj : JsonMembers → Json
deriving DecidableEq, Repr

/-- Modelled from the spec: the elements of a JSON array. -/
inductive JsonItems where
  | nil : JsonItems
  | cons : Json → JsonItems → JsonItems
deriving DecidableEq, Repr

/-- Modelled from the spec: the members of a JSON object. -/
inductive JsonMembers where
  | nil : JsonMembers
  | cons : String → Json → JsonMembers → JsonMembers
deriving DecidableEq, Repr
end

mutual
/-- Modelled from the spec: `RuntimeValue`, the tagged union over
Null, Bool, Integer, Decimal, String, List and Object. -/
inductive RuntimeValue where
  | null : RuntimeValue
  | bool : Bool → RuntimeValue
  | integer : Int → RuntimeValue
  | decimal : Int → Int → RuntimeValue
  | str : String → RuntimeValue
  | list : ValueItems → RuntimeValue
  | object : ValueEntries → RuntimeValue
deriving DecidableEq, Repr

/-- Modelled from the spec: the elements of a list `RuntimeValue`. -/
inductive ValueItems where
  | nil : ValueItems
  | cons : RuntimeValue → ValueItems → ValueItems
deriving DecidableEq, Repr

/-- Modelled from the spec: the entries of an object `RuntimeValue`. -/
inductive ValueEntries where
  | nil : ValueEntries
  | cons : String → RuntimeValue → ValueEntries → ValueEntries
deriving DecidableEq, Repr
end

mutual
/-- Modelled from the spec: the lossless conversion from JSON values into
`RuntimeValue` (`Value::into()`). -/
def Json.toRuntimeValue : Json → RuntimeValue
  | .null => .null
  | .bool b => .bool b
  | .intNum i => .integer i
  | .decNum m e => .decimal m e
  | .str s => .str s
  | .arr xs => .list xs.toValueItems
  | .obj kvs => .object kvs.toValueEntries

def JsonItems.toValueItems : JsonItems → ValueItems
  | .nil => .nil
  | .cons x rest => .cons x.toRuntimeValue rest.toValueItems

def JsonMembers.toValueEntries : JsonMembers → ValueEntries
  | .nil => .nil
  | .cons k v rest => .cons k v.toRuntimeValue rest.toValueEntries
end

/-- Modelled from the spec: the evaluator's `Output` payload. -/
inductive Output where
  | none : Output
  | identity : Output
  | transform : RuntimeValue → Output
deriving DecidableEq, Repr

/-- Modelled from the spec: `RuntimeError` kinds (the test runner only
wraps them). -/
inductive RuntimeError where
  | noSuchType : String → RuntimeError
  | unboundArgument : String → RuntimeError
  | cancelled : RuntimeError
  | other : String → RuntimeError
deriving DecidableEq, Repr

/-- Modelled from the spec: the test runner reads an `EvaluationResult`
only through `raw_output()`. -/
structure EvaluationResult where
  rawOutput : Output
deriving DecidableEq, Repr

/-- What reading and then JSON-parsing a file path yields: the open/read
may fail, the bytes may not parse, or a JSON value comes back. -/
inductive FileRead where
  | noFile : FileRead
  | unparseable : FileRead
  | json : Json → FileRead
deriving DecidableEq, Repr

/-- The `Expected` enum of the test runner. -/
inductive Expected where
  | pending : Expected
  | anything : Expected
  | identity : Expected
  | transform : String → Expected
  | none : Expected
deriving DecidableEq, Repr

/-- The `TestError` enum of the test runner. -/
inductive TestError where
  | readingInput : TestError
  | deserialization : TestError
  | runtime : RuntimeError → TestError
deriving DecidableEq, Repr

/-- The `TestResult` enum of the test runner. -/
inductive TestResult where
  | pending : TestResult
  | passed : TestResult
  | failed : TestResult
  | error : TestError → TestResult
deriving DecidableEq, Repr

/-- A `TestCase`: the pattern is carried as its canonical `::`-joined
string, the input as the path of its `input.json`. -/
structure TestCase where
  name : String
  pattern : String
  input : String
  expected : Expected
  result : Option TestResult
deriving DecidableEq, Repr

/-- Which of the four output marker files exist in a test directory. -/
structure TestDir where
  hasOutputJson : Bool
  hasOutputIdentity : Bool
  hasOutputAny : Bool
  hasOutputNone : Bool
deriving DecidableEq, Repr

/-- The expectation `TestPlan::new` derives for a test directory: the
first existing marker among `output.json`, `output.identity`,
`output.any`, `output.none` wins; none of them means `Pending`. -/
def expectedOf (parent : String) (d : TestDir) : Expected :=
  if d.hasOutputJson then .transform (parent ++ "/output.json")
  else if d.hasOutputIdentity then .identity
  else if d.hasOutputAny then .anything
  else if d.hasOutputNone then .none
  else .pending

/-- `TestCase::run`: a `Pending` expectation is recorded immediately;
otherwise the input file is read and parsed, the pattern evaluated, and
the outcome matched against the expectation exactly as the source's match
does, reading `output.json` only in the `Transform`/`Transform` arm. -/
def TestCase.run (fs : String → FileRead)
    (world : String → Json → Except RuntimeError EvaluationResult)
    (tc : TestCase) : TestCase :=
  match tc.expected with
  | .pending => { tc with result := some .pending }
  | _ =>
    match fs tc.input with
    | .noFile => { tc with result := some (.error .readingInput) }
    | .unparseable => { tc with result := some (.error .deserialization) }
    | .json input =>
      match world tc.pattern input with
      | .error err => { tc with result := some (.error (.runtime err)) }
      | .ok res =>
        match res.rawOutput, tc.expected with
        | .none, .none => { tc with result := some .passed }
        | .identity, .identity => { tc with result := some .passed }
        | .identity, .anything => { tc with result := some .passed }
        | .transform val, .transform expectedPath =>
          match fs expectedPath with
          | .json out =>
            if val = out.toRuntimeValue then { tc with result := some .passed }
            else { tc with result := some .failed }
          | _ => { tc with result := some .failed }
        | .transform _, .anything => { tc with result := some .passed }
        | _, _ => { tc with result := some .failed }

/-- The `TestPlan`: the discovered test cases. -/
structure TestPlan where
  tests : List TestCase
deriving DecidableEq, Repr

/-- `matches!(e.result, Some(TestResult::Passed))`. -/
def resultIsPassed : Option TestResult → Bool
  | some .passed => true
  | _ => false

/-- `matches!(e.result, Some(TestResult::Pending))`. -/
def resultIsPending : Option TestResult → Bool
  | some .pending => true
  | _ => false

/-- `matches!(e.result, Some(TestResult::Failed))`. -/
def resultIsFailed : Option TestResult → Bool
  | some .failed => true
  | _ => false

/-- `matches!(e.result, Some(TestResult::Error(_)))`. -/
def resultIsError : Option TestResult → Bool
  | some (.error _) => true
  | _ => false

/-- `TestPlan::passed`: `flat_map` each test to `Some(matches!(...))`
and `count` the results. -/
def TestPlan.passed (p : TestPlan) : Nat :=
  (p.tests.filterMap (fun e => some (resultIsPassed e.result))).length

/-- `TestPlan::pending`, built the same way. -/
def TestPlan.pending (p : TestPlan) : Nat :=
  (p.tests.filterMap (fun e => some (resultIsPending e.result))).length

/-- `TestPlan::failed`, built the same way. -/
def TestPlan.failed (p : TestPlan) : Nat :=
  (p.tests.filterMap (fun e => some (resultIsFailed e.result))).length

/-- `TestPlan::error`, built the same way. -/
def TestPlan.error (p : TestPlan) : Nat :=
  (p.tests.filterMap (fun e => some (resultIsError e.result))).length

/-! Claim theorems about the test runner. -/

theorem filterMap_some_length {α β : Type} (f : α → β) (l : List α) :
    (l.filterMap (fun e => some (f e))).length = l.length := by
  induction l with
  | nil => rfl
  | cons x rest ih => simp [List.filterMap_cons, ih]

/-- C7: for a test directory holding `output.json`, with readable and
parseable input and expected-output files, the test passes exactly when
evaluation succeeds with `Transform(v)` for `v` equal to the
`RuntimeValue` conversion of the stored JSON; any other successful output
or an unequal transform is `Failed`, and an evaluation error is recorded
as a `Runtime` error. -/
theorem C7_transform_test_passes_iff_equal (fs : String → FileRead)
    (world : String → Json → Except RuntimeError EvaluationResult)
    (tc : TestCase) (parent : String) (d : TestDir)
    (inputJson outJson : Json)
    (hdir : d.hasOutputJson = true)
    (hexp : tc.expected = expectedOf parent d)
    (hin : fs tc.input = .json inputJson)
    (hout : fs (parent ++ "/output.json") = .json outJson) :
    (∀ res, world tc.pattern inputJson = .ok res →
      ((tc.run fs world).result = some .passed ∨
        (tc.run fs world).result = some .failed) ∧
      ((tc.run fs world).result = some .passed ↔
        res.rawOutput = .transform outJson.toRuntimeValue)) ∧
    (∀ err, world tc.pattern inputJson = .error err →
      (tc.run fs world).result = some (.error (.runtime err))) := by
  simp only [expectedOf, hdir, if_true] at hexp
  obtain ⟨nm, pat, inp, exp, r0⟩ := tc
  simp only at hexp hin ⊢
  subst hexp
  constructor
  · intro res hres
    cases hro : res.rawOutput with
    | none => simp [TestCase.run, hin, hres, hro]
    | identity => simp [TestCase.run, hin, hres, hro]
    | transform val =>
      by_cases hv : val = outJson.toRuntimeValue
      · simp [TestCase.run, hin, hres, hro, hout, hv]
      · simp [TestCase.run, hin, hres, hro, hout, hv]
  · intro err herr
    simp [TestCase.run, hin, herr]

/-- Concrete file system for the transform-test witness: the directory
`t` holds `input.json` with `1` and `output.json` with `2`. -/
def fsTransform : String → FileRead := fun p =>
  if p = "t/input.json" then .json (.intNum 1)
  else if p = "t/output.json" then .json (.intNum 2)
  else .noFile

/-- Concrete evaluator for the transform-test witness: every evaluation
transforms to the integer `2`. -/
def worldTransform : String → Json → Except RuntimeError EvaluationResult :=
  fun _ _ => .ok ⟨.transform (.integer 2)⟩

/-- Concrete test case for the transform-test witness. -/
def tcTransform : TestCase :=
  ⟨"case1", "pat", "t/input.json", .transform ("t/output.json"), none⟩

/-- C7 witness: on the concrete transform test whose evaluation output
equals `output.json`, the run records `Passed`. -/
theorem C7_witness :
    (tcTransform.run fsTransform worldTransform).result = some .passed :=
  ((C7_transform_test_passes_iff_equal fsTransform worldTransform
      tcTransform "t" ⟨true, false, false, false⟩ (.intNum 1) (.intNum 2)
      rfl (by decide) (by decide) (by decide)).1
    ⟨.transform (.integer 2)⟩ rfl).2.mpr rfl

/-- C8: a test directory with `input.json` but none of the four output
markers gets expectation `Pending`, and running a `Pending` test records
`Pending` for every file system and every evaluator — the input is never
read and evaluation never invoked. -/
theorem C8_no_output_marker_is_pending (parent : String) (d : TestDir)
    (h1 : d.hasOutputJson = false) (h2 : d.hasOutputIdentity = false)
    (h3 : d.hasOutputAny = false) (h4 : d.hasOutputNone = false) :
    expectedOf parent d = .pending ∧
    ∀ (fs : String → FileRead)
      (world : String → Json → Except RuntimeError EvaluationResult)
      (tc : TestCase), tc.expected = .pending →
        (tc.run fs world).result = some .pending := by
  refine ⟨by simp [expectedOf, h1, h2, h3, h4], ?_⟩
  intro fs world tc hexp
  obtain ⟨nm, pat, inp, exp, r0⟩ := tc
  simp only at hexp
  subst hexp
  rfl

/-- C8 witness: the concrete markerless directory is `Pending`, and a
pending test records `Pending` under a file system with no files and an
evaluator that always errors. -/
theorem C8_witness :
    expectedOf "t" ⟨false, false, false, false⟩ = .pending ∧
    (TestCase.run (fun _ => .noFile) (fun _ _ => .error .cancelled)
      ⟨"n", "p", "t/input.json", .pending, none⟩).result = some .pending :=
  ⟨(C8_no_output_marker_is_pending "t" ⟨false, false, false, false⟩
      rfl rfl rfl rfl).1,
    (C8_no_output_marker_is_pending "t" ⟨false, false, false, false⟩
      rfl rfl rfl rfl).2 (fun _ => .noFile) (fun _ _ => .error .cancelled)
      ⟨"n", "p", "t/input.json", .pending, none⟩ rfl⟩

/-- C9: each of the four counters maps every test to `Some(bool)` and
counts the `Some`s, so each one returns the total number of tests rather
than the number of tests with the corresponding result — all four are
always equal. -/
theorem C9_counters_return_total (p : TestPlan) :
    p.passed = p.tests.length ∧ p.failed = p.tests.length ∧
    p.pending = p.tests.length ∧ p.error = p.tests.length := by
  refine ⟨?_, ?_, ?_, ?_⟩ <;>
    simp [TestPlan.passed, TestPlan.failed, TestPlan.pending,
      TestPlan.error, filterMap_some_length]

/-! Embedding of the HTML renderer
(seedwing-policy-server/src/ui/html.rs). The lir type family is
reconstructed from the renderer's own match arms plus the spec's variant
table; a `todo!()` arm is an absent result (`none`). -/

/-- Modelled from the spec: `as_type_str()`, the canonical `::`-joined
rendering of a `TypeName`. -/
def TypeName.asTypeStr (t : TypeName) : String :=
  String.intercalate "::" (t.package ++ [t.name])

/-- Modelled from the spec: `PrimordialType`, with `Function` carrying a
name and a callable handle. -/
inductive PrimordialType where
  | integer : PrimordialType
  | decimal : PrimordialType
  | boolean : PrimordialType
  | string : PrimordialType
  | function : TypeName → Callable → PrimordialType
deriving DecidableEq, Repr

namespace Lir

mutual
/-- Modelled from the spec: a lir `Type` node — an optional name (present
when the node corresponds to a named definition) and an inner variant. -/
inductive Ty where
  | mk : Option TypeName → InnerTy → Ty
deriving DecidableEq, Repr

/-- Modelled from the spec: the lir `InnerType` variants, exactly the arms
the renderer matches on. -/
inductive InnerTy where
  | anything : InnerTy
  | primordial : PrimordialType → InnerTy
  | bound : Ty → Nat → InnerTy
  | argument : String → InnerTy
  | const : RuntimeValue → InnerTy
  | object : ObjectFields → InnerTy
  | expr : String → InnerTy
  | join : Ty → Ty → InnerTy
  | meet : Ty → Ty → InnerTy
  | refinement : Ty → Ty → InnerTy
  | list : Ty → InnerTy
  | nothing : InnerTy
deriving DecidableEq, Repr

/-- Modelled from the spec: the named fields of a lir `ObjectType`. -/
inductive ObjectFields where
  | nil : ObjectFields
  | cons : String → Ty → ObjectFields → ObjectFields
deriving DecidableEq, Repr
end

/-- `name()` of a lir type node. -/
def Ty.name : Ty → Option TypeName
  | .mk n _ => n

/-- `inner()` of a lir type node. -/
def Ty.inner : Ty → InnerTy
  | .mk _ i => i

end Lir

/-- `Htmlifier::a`: render an anchor for a named type, the href being the
root followed by the `::`-to-`/` rewriting of the canonical name. -/
def anchor (root : String) (name : TypeName) : String :=
  "<a href='" ++ (root ++ ((TypeName.asTypeStr name).replace "::" "/")) ++
    "'>" ++ TypeName.asTypeStr name ++ "</a>"

mutual
/-- `Htmlifier::html_of_ty`: a named node renders as an anchor without
recursing; an unnamed node falls through to `html_of_ty_inner`. -/
def htmlOfTy (root : String) : Lir.Ty → Option String
  | .mk (some n) _ => some (anchor root n)
  | .mk none i => htmlOfInner root i

/-- `Htmlifier::html_of_ty_inner`: the `todo!()` arms (`Bound`,
`Argument`, `Const`, `Expr`, `Meet`, `Refinement`, `List`) produce no
string; the `Object` arm is `html_of_object`, inlined here: braces around
the rendered field loop. -/
def htmlOfInner (root : String) : Lir.InnerTy → Option String
  | .anything => some ("<span>" ++ "anything" ++ "</span>")
  | .primordial p =>
    match p with
    | .integer => some ("<span>" ++ "integer" ++ "</span>")
    | .decimal => some ("<span>" ++ "decimal" ++ "</span>")
    | .boolean => some ("<span>" ++ "boolean" ++ "</span>")
    | .string => some ("<span>" ++ "string" ++ "</span>")
    | .function _ _ => some ("<span>" ++ "built-in function" ++ "</span>")
  | .bound _ _ => none
  | .argument _ => none
  | .const _ => none
  | .object fields => do
    let inner ← htmlOfFields root fields
    pure ("<div>" ++ "\x7b" ++ inner ++ "\x7d" ++ "</div>")
  | .expr _ => none
  | .join lhs rhs => do
    let ls ← htmlOfTy root lhs
    let rs ← htmlOfTy root rhs
    pure ("<span>" ++ ls ++ "||" ++ rs ++ "</span>")
  | .meet _ _ => none
  | .refinement _ _ => none
  | .list _ => none
  | .nothing => some ("<span>" ++ "nothing" ++ "</span>")

/-- The field loop of `html_of_object`: each field renders its name and
its type via `html_of_ty`. -/
def htmlOfFields (root : String) : Lir.ObjectFields → Option String
  | .nil => some ""
  | .cons n t rest => do
    let s ← htmlOfTy root t
    let srest ← htmlOfFields root rest
    pure ("<div>" ++ "<span>" ++ n ++ ":" ++ s ++ "</span>" ++ "</div>" ++
      srest)
end

/-- `Htmlifier::html_of`: starts directly at `html_of_ty_inner` on the
given node, ignoring the node's own name. -/
def Htmlifier.htmlOf (root : String) (t : Lir.Ty) : Option String :=
  htmlOfInner root t.inner

mutual
/-- Whether an inner variant only uses the implemented constructors in
its reachable unnamed structure. -/
def goodInner : Lir.InnerTy → Bool
  | .anything => true
  | .primordial _ => true
  | .bound _ _ => false
  | .argument _ => false
  | .const _ => false
  | .object fields => goodFields fields
  | .expr _ => false
  | .join lhs rhs => goodChild lhs && goodChild rhs
  | .meet _ _ => false
  | .refinement _ _ => false
  | .list _ => false
  | .nothing => true

/-- A sub-node is harmless when named (it renders as an anchor without
recursing) or when its own unnamed structure is good. -/
def goodChild : Lir.Ty → Bool
  | .mk (some _) _ => true
  | .mk none i => goodInner i

def goodFields : Lir.ObjectFields → Bool
  | .nil => true
  | .cons _ t rest => goodChild t && goodFields rest
end

/-- The variants whose `html_of_ty_inner` arm is an unimplemented
placeholder. -/
def isBadVariant : Lir.InnerTy → Bool
  | .bound _ _ => true
  | .argument _ => true
  | .const _ => true
  | .expr _ => true
  | .meet _ _ => true
  | .refinement _ _ => true
  | .list _ => true
  | _ => false

mutual
theorem htmlOfTy_isSome (root : String) (t : Lir.Ty) :
    (htmlOfTy root t).isSome = goodChild t := by
  cases t with
  | mk n i =>
    cases n with
    | some nm => rfl
    | none =>
      simp only [htmlOfTy, goodChild]
      exact htmlOfInner_isSome root i

theorem htmlOfInner_isSome (root : String) (i : Lir.InnerTy) :
    (htmlOfInner root i).isSome = goodInner i := by
  cases i with
  | anything => rfl
  | primordial p => cases p <;> rfl
  | bound g b => rfl
  | argument nm => rfl
  | const v => rfl
  | object fields =>
    have ih := htmlOfFields_isSome root fields
    simp only [htmlOfInner, goodInner, ← ih]
    cases htmlOfFields root fields <;> rfl
  | expr e => rfl
  | join lhs rhs =>
    have ihl := htmlOfTy_isSome root lhs
    have ihr := htmlOfTy_isSome root rhs
    simp only [htmlOfInner, goodInner, ← ihl, ← ihr]
    cases htmlOfTy root lhs <;> cases htmlOfTy root rhs <;> rfl
  | meet lhs rhs => rfl
  | refinement b p => rfl
  | list e => rfl
  | nothing => rfl

theorem htmlOfFields_isSome (root : String) (fields : Lir.ObjectFields) :
    (htmlOfFields root fields).isSome = goodFields fields := by
  cases fields with
  | nil => rfl
  | cons n t rest =>
    have iht := htmlOfTy_isSome root t
    have ihrest := htmlOfFields_isSome root rest
    simp only [htmlOfFields, goodFields, ← iht, ← ihrest]
    cases htmlOfTy root t <;> cases htmlOfFields root rest <;> rfl
end

/-- C10: `html_of` yields an HTML string exactly when the node's reachable
unnamed structure uses only `Anything`, `Primordial`, `Object`, `Join`
and `Nothing` (named sub-nodes render as anchors without recursing), and
every node whose inner variant is `Bound`, `Argument`, `Const`, `Expr`,
`Meet`, `Refinement` or `List` hits an unimplemented placeholder and
returns no string. -/
theorem C10_htmlOf_totality (root : String) :
    (∀ t : Lir.Ty, (Htmlifier.htmlOf root t).isSome = goodInner t.inner) ∧
    (∀ t : Lir.Ty, isBadVariant t.inner = true →
      Htmlifier.htmlOf root t = none) := by
  constructor
  · intro t
    exact htmlOfInner_isSome root t.inner
  · intro t hbad
    cases t with
    | mk n i =>
      cases i <;> first
        | rfl
        | exact absurd hbad (by simp [isBadVariant, Lir.Ty.inner])

/-- C10 witness: a `Bound` node is a bad variant and renders no string. -/
theorem C10_witness :
    isBadVariant (Lir.Ty.mk none
      (.bound (Lir.Ty.mk none .anything) 0)).inner = true ∧
    Htmlifier.htmlOf "/policy/" (Lir.Ty.mk none
      (.bound (Lir.Ty.mk none .anything) 0)) = none :=
  ⟨rfl, (C10_htmlOf_totality "/policy/").2
    (Lir.Ty.mk none (.bound (Lir.Ty.mk none .anything) 0)) rfl⟩

end Seedwing
